import Mathlib

/-!
PracticeGame: the `Mob` class and the battle driver.

A shallow embedding of `src/Mob.h`, `src/Mob.cpp` and `src/main.cpp`.

* C++ `int` values are carried as `Int`; the only arithmetic in the program is the
  subtraction in the battle loop, which is modelled by `subInt` (32-bit two's complement).
* A non-`const` member function is a transformer of `MobCtx`, the part of the program
  state a member of `Mob` can reach: the static `mobCount` and the receiver `*this`.
  A `const` member function is a reader of the same context.
* `std::cout` is modelled by a log of output lines (`Out`), `std::cin` by the value or the
  token list that is read.
* `delete` applied to a pointer that was never assigned has no defined behaviour; the
  statements after it have no result in the model (`resolve` gives `none`).
-/

namespace PracticeGame

/-! ## Machine integers -/

/-- The least value of a 32-bit `int`. -/
def INT_MIN : Int := -2147483648

/-- The greatest value of a 32-bit `int`. -/
def INT_MAX : Int := 2147483647

/-- Representable as a 32-bit signed `int`. -/
def isInt (x : Int) : Prop := INT_MIN ≤ x ∧ x ≤ INT_MAX

instance (x : Int) : Decidable (isInt x) := by
  unfold isInt; infer_instance

/-- Reduction of an exact integer to the 32-bit two's-complement value with the same
low 32 bits. -/
def wrapInt (x : Int) : Int := (x + 2147483648) % 4294967296 - 2147483648

/-- The `int` subtraction `a - b` of the battle loop. -/
def subInt (a b : Int) : Int := wrapInt (a - b)

/-- The `int` increment `x++` of `Tree::Tree`. -/
def incInt (x : Int) : Int := wrapInt (x + 1)

/-! ## `Mob` (Mob.h, Mob.cpp) -/

/-- Value of the member `int* unsafeGoldPouch`. No statement of the program assigns it, so
besides the values a pointer can be given (`null`, the address of a `new int`) the model
has the indeterminate value of a pointer that was never assigned. -/
inductive IntPtr where
  | indeterminate
  | null
  | buffer (addr : Nat)
  deriving DecidableEq, Repr

/-- Whether `delete p` has defined behaviour: `p` is null (nothing is done) or the address
of a `new int` (the buffer is released). For a pointer that was never assigned it has
none. -/
def IntPtr.deletable : IntPtr → Bool
  | IntPtr.indeterminate => false
  | IntPtr.null => true
  | IntPtr.buffer _ => true

/-- The non-static data members of `class Mob` (Mob.h). The member `def` is spelled
`def_`. -/
structure Mob where
  name : String
  hp : Int
  atk : Int
  def_ : Int
  unsafeGoldPouch : IntPtr
  deriving DecidableEq, Repr

/-- The state a member function of `Mob` can reach: the static member `mobCount` and the
receiver object. -/
structure MobCtx where
  mobCount : Int
  this : Mob
  deriving DecidableEq, Repr

/-- The constructor `Mob::Mob()`: assigns the four defaults; `unsafeGoldPouch` is not assigned and
`mobCount` is not touched. The argument is the value of the static on entry. -/
def Mob.new (mobCount : Int) : MobCtx :=
  { mobCount := mobCount
    this :=
      { name := "John Doe"
        hp := 15
        atk := 15
        def_ := 15
        unsafeGoldPouch := IntPtr.indeterminate } }

/-- The constructor `Mob::Mob(std::string n, int h, int a, int d)`: assigns the four arguments;
`unsafeGoldPouch` is not assigned and `mobCount` is not touched. -/
def Mob.newWith (n : String) (h a d : Int) (mobCount : Int) : MobCtx :=
  { mobCount := mobCount
    this :=
      { name := n
        hp := h
        atk := a
        def_ := d
        unsafeGoldPouch := IntPtr.indeterminate } }

/-- The member `void Mob::setHP(int health)`. -/
def Mob.setHP (health : Int) (c : MobCtx) : MobCtx :=
  { c with this := { c.this with hp := health } }

/-- The member `int Mob::getHP() const`. -/
def Mob.getHP (c : MobCtx) : Int := c.this.hp

/-- The member `void Mob::setATK(int attack)`. -/
def Mob.setATK (attack : Int) (c : MobCtx) : MobCtx :=
  { c with this := { c.this with atk := attack } }

/-- The member `int Mob::getATK() const`. -/
def Mob.getATK (c : MobCtx) : Int := c.this.atk

/-- The member `void Mob::setDEF(int defense)`. -/
def Mob.setDEF (defense : Int) (c : MobCtx) : MobCtx :=
  { c with this := { c.this with def_ := defense } }

/-- The member `int Mob::getDEF() const`. -/
def Mob.getDEF (c : MobCtx) : Int := c.this.def_

/-- The member `void Mob::setName(std::string n)`. -/
def Mob.setName (n : String) (c : MobCtx) : MobCtx :=
  { c with this := { c.this with name := n } }

/-- The member `std::string Mob::getName() const`. -/
def Mob.getName (c : MobCtx) : String := c.this.name

/-- The member `int Mob::getMobCount() const`. -/
def Mob.getMobCount (c : MobCtx) : Int := c.mobCount

/-- The destructor `Mob::~Mob()`: hands `unsafeGoldPouch` to `delete`. The result is the value of the static
afterwards together with the pointer that was released. -/
def Mob.destroy (c : MobCtx) : Int × IntPtr := (c.mobCount, c.this.unsafeGoldPouch)

/-- The constructor `Tree::Tree()` (main.cpp): `objectCount++`. The argument and the result are the value of
the static `Tree::objectCount` before and after. -/
def Tree.new (objectCount : Int) : Int := incInt objectCount

/-- The accessor `Tree::getObjectCount()`. -/
def Tree.getObjectCount (objectCount : Int) : Int := objectCount

/-! ### Sequences of setter calls -/

/-- One call of a setter of `Mob`, with its argument. -/
inductive SetterCall where
  | setHP (health : Int)
  | setATK (attack : Int)
  | setDEF (defense : Int)
  | setName (n : String)
  deriving DecidableEq, Repr

/-- Executes one setter call on the receiver. -/
def SetterCall.exec (call : SetterCall) (c : MobCtx) : MobCtx :=
  match call with
  | SetterCall.setHP v => Mob.setHP v c
  | SetterCall.setATK v => Mob.setATK v c
  | SetterCall.setDEF v => Mob.setDEF v c
  | SetterCall.setName n => Mob.setName n c

/-- Executes a sequence of setter calls, first call first. -/
def execCalls (calls : List SetterCall) (c : MobCtx) : MobCtx :=
  calls.foldl (fun acc call => call.exec acc) c

/-- Argument of the last `setHP` call of a sequence, if there is one. -/
def lastSetHP : List SetterCall → Option Int
  | [] => none
  | call :: rest =>
    match lastSetHP rest with
    | some v => some v
    | none => match call with
      | SetterCall.setHP v => some v
      | _ => none

/-- Argument of the last `setATK` call of a sequence, if there is one. -/
def lastSetATK : List SetterCall → Option Int
  | [] => none
  | call :: rest =>
    match lastSetATK rest with
    | some v => some v
    | none => match call with
      | SetterCall.setATK v => some v
      | _ => none

/-- Argument of the last `setDEF` call of a sequence, if there is one. -/
def lastSetDEF : List SetterCall → Option Int
  | [] => none
  | call :: rest =>
    match lastSetDEF rest with
    | some v => some v
    | none => match call with
      | SetterCall.setDEF v => some v
      | _ => none

/-- Argument of the last `setName` call of a sequence, if there is one. -/
def lastSetName : List SetterCall → Option String
  | [] => none
  | call :: rest =>
    match lastSetName rest with
    | some v => some v
    | none => match call with
      | SetterCall.setName v => some v
      | _ => none

/-- The four getters applied to one receiver. -/
def readAll (c : MobCtx) : Int × Int × Int × String :=
  (Mob.getHP c, Mob.getATK c, Mob.getDEF c, Mob.getName c)

/-- The value most recently written to each field: the argument of the last call of the
field's setter, and the value the constructor wrote when there is no such call. -/
def lastWritten (calls : List SetterCall) (h a d : Int) (n : String) :
    Int × Int × Int × String :=
  ((lastSetHP calls).getD h, (lastSetATK calls).getD a, (lastSetDEF calls).getD d,
    (lastSetName calls).getD n)

/-! ### Constructions and destructions -/

/-- One event in the life of the class: a construction by either constructor, or the
destruction of an object. -/
inductive MobEvent where
  | construct
  | constructWith (n : String) (h a d : Int)
  | destroy (m : Mob)
  deriving DecidableEq, Repr

/-- Value of the static `mobCount` after one event, given its value before. -/
def MobEvent.exec (e : MobEvent) (mobCount : Int) : Int :=
  match e with
  | MobEvent.construct => (Mob.new mobCount).mobCount
  | MobEvent.constructWith n h a d => (Mob.newWith n h a d mobCount).mobCount
  | MobEvent.destroy m => (Mob.destroy { mobCount := mobCount, this := m }).1

/-- Value of the static `mobCount` after a sequence of events, first event first. -/
def mobCountAfter (events : List MobEvent) (mobCount : Int) : Int :=
  events.foldl (fun acc e => e.exec acc) mobCount

/-- Number of constructor calls in a sequence of events. -/
def constructions : List MobEvent → Nat
  | [] => 0
  | MobEvent.destroy _ :: rest => constructions rest
  | _ :: rest => constructions rest + 1

/-! ## The driver (main.cpp) -/

/-- One line written to `std::cout`. -/
inductive Out where
  | hello
  | askHP
  | fight
  | yourHP (hp : Int)
  | enemyHP (hp : Int)
  | won
  | lost
  deriving DecidableEq, Repr

/-- The text of an output line. -/
def Out.text : Out → String
  | Out.hello => "Hello World!"
  | Out.askHP => "What hp do you want?"
  | Out.fight => "FIGHT!"
  | Out.yourHP hp => "Your HP is " ++ toString hp
  | Out.enemyHP hp => "Enemy HP is " ++ toString hp
  | Out.won => "You won!! Good job!!"
  | Out.lost => "You lost!!!!! HAHAHAHAHAAHAHA!!!!!!"

/-- State of `main` while both combatants exist: the two statics, the automatic object
`me`, the object `enemyPtr` points to, and the output written so far. -/
structure Game where
  objectCount : Int
  mobCount : Int
  me : Mob
  enemy : Mob
  out : List Out
  deriving DecidableEq, Repr

/-- Context of a member call on `me`. -/
def Game.meCtx (g : Game) : MobCtx := { mobCount := g.mobCount, this := g.me }

/-- Context of a member call through `enemyPtr`. -/
def Game.enemyCtx (g : Game) : MobCtx := { mobCount := g.mobCount, this := g.enemy }

/-- Writes back the context left by a member call on `me`. -/
def Game.setMe (g : Game) (c : MobCtx) : Game :=
  { g with mobCount := c.mobCount, me := c.this }

/-- Writes back the context left by a member call through `enemyPtr`. -/
def Game.setEnemy (g : Game) (c : MobCtx) : Game :=
  { g with mobCount := c.mobCount, enemy := c.this }

/-- A line written by `std::cout << ... << std::endl`. -/
def Game.print (g : Game) (o : Out) : Game := { g with out := g.out ++ [o] }

/-- The function `main` up to the battle loop, with `tempInt` the value read from `std::cin`. -/
def setup (tempInt : Int) : Game :=
  let objectCount := Tree.new (Tree.new (Tree.new 0))
  let me := Mob.new 0
  let enemy := Mob.new me.mobCount
  let g : Game :=
    { objectCount := objectCount
      mobCount := enemy.mobCount
      me := me.this
      enemy := enemy.this
      out := [Out.hello] }
  let g := g.setEnemy (Mob.setHP 10 g.enemyCtx)
  let g := g.setEnemy (Mob.setATK 10 g.enemyCtx)
  let g := g.setEnemy (Mob.setDEF 10 g.enemyCtx)
  let g := g.setEnemy (Mob.setName "bob" g.enemyCtx)
  let g := g.print Out.askHP
  let g := g.setMe (Mob.setHP tempInt g.meCtx)
  let g := g.setMe (Mob.setATK 2 g.meCtx)
  let g := g.setMe (Mob.setDEF 10 g.meCtx)
  g.setMe (Mob.setName "Me" g.meCtx)

/-- The statement `enemyPtr->setHP(enemyPtr->getHP()-me.getATK());` -/
def hitEnemy (g : Game) : Game :=
  g.setEnemy (Mob.setHP (subInt (Mob.getHP g.enemyCtx) (Mob.getATK g.meCtx)) g.enemyCtx)

/-- The statement `me.setHP(me.getHP() - enemyPtr->getATK());` -/
def hitMe (g : Game) : Game :=
  g.setMe (Mob.setHP (subInt (Mob.getHP g.meCtx) (Mob.getATK g.enemyCtx)) g.meCtx)

/-- The body of the battle loop. -/
def round (g : Game) : Game :=
  let g := g.print Out.fight
  let g := hitEnemy g
  let g := hitMe g
  let g := g.print (Out.yourHP (Mob.getHP g.meCtx))
  g.print (Out.enemyHP (Mob.getHP g.enemyCtx))

/-- The condition of the battle loop: `(*enemyPtr).getHP() > 0 && me.getHP()>0`. -/
def fighting (g : Game) : Bool :=
  decide (Mob.getHP g.enemyCtx > 0) && decide (Mob.getHP g.meCtx > 0)

/-- The battle loop, allowed at most `fuel` rounds: the state in which the condition is
found false, `none` when the rounds allowed are used up before that. -/
def battleLoop : Nat → Game → Option Game
  | 0, g => if fighting g then none else some g
  | fuel + 1, g => if fighting g then battleLoop fuel (round g) else some g

/-- The battle loop instrumented: the states in which the loop condition is evaluated, in
order. The last one is the state the loop leaves, the others are the states a round starts
from. -/
def battleTrace : Nat → Game → Option (List Game)
  | 0, g => if fighting g then none else some [g]
  | fuel + 1, g =>
    if fighting g then (battleTrace fuel (round g)).map (fun rest => g :: rest)
    else some [g]

/-- Consecutive states of a trace are one round apart. -/
def roundChain : List Game → Prop
  | [] => True
  | [_] => True
  | g :: g' :: rest => g' = round g ∧ roundChain (g' :: rest)

/-- The reported result of the battle. -/
inductive Outcome where
  | win
  | loss
  deriving DecidableEq, Repr

/-- State of `main` after the battle, when `delete enemyPtr;` had defined behaviour: the
enemy is gone. `released` is the pointer its destructor handed to `delete`. -/
structure Resolved where
  objectCount : Int
  mobCount : Int
  me : Mob
  released : IntPtr
  out : List Out
  outcome : Outcome
  deriving DecidableEq, Repr

/-- The function `main` from `delete enemyPtr;` through the win/loss message. The
destructor of the enemy hands its `unsafeGoldPouch` to `delete`; when that pointer was never
assigned the behaviour is undefined from there on and no outcome is reported: `none`.
Otherwise the check `me.getHP()>0` follows and writes its line. -/
def resolve (g : Game) : Option Resolved :=
  let gone := Mob.destroy g.enemyCtx
  if gone.2.deletable then
    let me : MobCtx := { mobCount := gone.1, this := g.me }
    if Mob.getHP me > 0 then
      some
        { objectCount := g.objectCount
          mobCount := me.mobCount
          me := me.this
          released := gone.2
          out := g.out ++ [Out.won]
          outcome := Outcome.win }
    else
      some
        { objectCount := g.objectCount
          mobCount := me.mobCount
          me := me.this
          released := gone.2
          out := g.out ++ [Out.lost]
          outcome := Outcome.loss }
  else none

/-- How the process ends in `exit(0)`: the exit status, the number of tokens the quit loop
read, the tokens left unread, and the output written up to then. -/
structure Exit where
  status : Int
  read : Nat
  unread : List String
  out : List Out
  deriving DecidableEq, Repr

/-- The quit loop on the whitespace-separated tokens still waiting on `std::cin`, with
`out` the output written so far. On an exhausted stream the extraction fails, `quit` stays
empty and the loop never leaves: `none`. -/
def quitLoop : List String → List Out → Option Exit
  | [], _ => none
  | quit :: rest, out =>
    if quit = "q" then some { status := 0, read := 1, unread := rest, out := out }
    else (quitLoop rest out).map (fun e => { e with read := e.read + 1 })

/-! ## Definitions for the relational and driver properties -/

/-- One call of a `const` member function of `Mob`. -/
inductive GetterCall where
  | getHP
  | getATK
  | getDEF
  | getName
  | getMobCount
  deriving DecidableEq, Repr

/-- The value a getter returns: an `int` or a `std::string`. -/
inductive Value where
  | int (v : Int)
  | text (s : String)
  deriving DecidableEq, Repr

/-- Executes one getter call as a statement: the value returned and the state of the static
and the receiver afterwards. The bodies are a single `return` of a member, so the state
afterwards is the state before. -/
def GetterCall.exec (call : GetterCall) (c : MobCtx) : Value × MobCtx :=
  match call with
  | GetterCall.getHP => (Value.int (Mob.getHP c), c)
  | GetterCall.getATK => (Value.int (Mob.getATK c), c)
  | GetterCall.getDEF => (Value.int (Mob.getDEF c), c)
  | GetterCall.getName => (Value.text (Mob.getName c), c)
  | GetterCall.getMobCount => (Value.int (Mob.getMobCount c), c)

/-- The state after a sequence of getter calls, first call first. -/
def execGetters (calls : List GetterCall) (c : MobCtx) : MobCtx :=
  calls.foldl (fun acc call => (call.exec acc).2) c

/-- The state that differs from `g` in the defense values only: `me.setDEF(dMe)` and
`enemyPtr->setDEF(dEnemy)` applied to `g`. -/
def withDefense (dMe dEnemy : Int) (g : Game) : Game :=
  let g := g.setMe (Mob.setDEF dMe g.meCtx)
  g.setEnemy (Mob.setDEF dEnemy g.enemyCtx)

/-- The hit points of the player and of the enemy, as the getters report them. -/
def hitPoints (g : Game) : Int × Int := (Mob.getHP g.meCtx, Mob.getHP g.enemyCtx)

/-- The two updates of a round as the specification words them: both new hit points are
computed from the values before the round. -/
def simultaneousHits (g : Game) : Game :=
  let enemyHP := subInt (Mob.getHP g.enemyCtx) (Mob.getATK g.meCtx)
  let meHP := subInt (Mob.getHP g.meCtx) (Mob.getATK g.enemyCtx)
  let g1 := g.setEnemy (Mob.setHP enemyHP g.enemyCtx)
  g1.setMe (Mob.setHP meHP g1.meCtx)

/-- A round with the two updates computed from the values before the round. -/
def roundSimultaneous (g : Game) : Game :=
  let g := g.print Out.fight
  let g := simultaneousHits g
  let g := g.print (Out.yourHP (Mob.getHP g.meCtx))
  g.print (Out.enemyHP (Mob.getHP g.enemyCtx))

/-- A round with the two updates in the opposite order: the player first, the enemy
second. -/
def roundOpposite (g : Game) : Game :=
  let g := g.print Out.fight
  let g := hitMe g
  let g := hitEnemy g
  let g := g.print (Out.yourHP (Mob.getHP g.meCtx))
  g.print (Out.enemyHP (Mob.getHP g.enemyCtx))

/-- The start state and the states after each of the first `n` rounds from `g`. -/
def firstStates (n : Nat) (g : Game) : List Game :=
  (List.range (n + 1)).map (fun i => round^[i] g)

/-- The least integer not below `h / 10`. -/
def ceilTenth (h : Int) : Int := (h + 9) / 10

/-- The number of rounds stated for the driver on input `h`: none for `h <= 0`, else the
lesser of 5 and the ceiling of `h / 10`. -/
def driverRounds (h : Int) : Nat :=
  if h ≤ 0 then 0 else min 5 (ceilTenth h).toNat

/-- The driver `k` rounds into the battle on input `h`: attacks 2 and 10, player hit
points `h - 10 k`, enemy hit points `10 - 2 k`. -/
def DriverAt (h : Int) (k : Nat) (g : Game) : Prop :=
  Mob.getATK g.meCtx = 2 ∧ Mob.getATK g.enemyCtx = 10 ∧
  Mob.getHP g.meCtx = h - 10 * (k : Int) ∧ Mob.getHP g.enemyCtx = 10 - 2 * (k : Int)

/-! ## Auxiliary lemmas -/

theorem wrapInt_of_isInt (x : Int) (h : isInt x) : wrapInt x = x := by
  unfold isInt INT_MIN INT_MAX at h
  unfold wrapInt
  omega

theorem isInt_wrapInt (x : Int) : isInt (wrapInt x) := by
  unfold isInt INT_MIN INT_MAX wrapInt
  omega

theorem subInt_exact (a b : Int) (h : isInt (a - b)) : subInt a b = a - b :=
  wrapInt_of_isInt (a - b) h

theorem execCalls_cons (call : SetterCall) (rest : List SetterCall) (c : MobCtx) :
    execCalls (call :: rest) c = execCalls rest (call.exec c) := rfl

theorem readAll_execCalls (calls : List SetterCall) :
    ∀ c : MobCtx,
      readAll (execCalls calls c) =
        lastWritten calls c.this.hp c.this.atk c.this.def_ c.this.name := by
  induction calls with
  | nil => intro c; rfl
  | cons call rest ih =>
    intro c
    rw [execCalls_cons, ih]
    cases call <;>
      simp only [lastWritten, lastSetHP, lastSetATK, lastSetDEF, lastSetName,
        SetterCall.exec, Mob.setHP, Mob.setATK, Mob.setDEF, Mob.setName] <;>
      cases lastSetHP rest <;> cases lastSetATK rest <;> cases lastSetDEF rest <;>
      cases lastSetName rest <;> rfl

theorem mobCountAfter_eq (events : List MobEvent) :
    ∀ k : Int, mobCountAfter events k = k := by
  induction events with
  | nil => intro k; rfl
  | cons e rest ih =>
    intro k
    have step : mobCountAfter (e :: rest) k = mobCountAfter rest (e.exec k) := rfl
    rw [step, ih]
    cases e <;> rfl

theorem battleLoop_trace :
    ∀ (fuel : Nat) (g final : Game), battleLoop fuel g = some final →
      ∃ earlier : List Game,
        battleTrace fuel g = some (earlier ++ [final]) ∧
        (earlier ++ [final]).head? = some g ∧
        roundChain (earlier ++ [final]) ∧
        fighting final = false ∧
        ∀ s ∈ earlier, fighting s = true := by
  intro fuel
  induction fuel with
  | zero =>
    intro g final h
    by_cases hf : fighting g = true
    · simp [battleLoop, hf] at h
    · simp only [battleLoop, hf, Bool.false_eq_true, if_false, Option.some.injEq] at h
      subst h
      refine ⟨[], ?_, rfl, trivial, by simpa using hf, by simp⟩
      simp [battleTrace, hf]
  | succ n ih =>
    intro g final h
    by_cases hf : fighting g = true
    · simp only [battleLoop, hf, if_true] at h
      obtain ⟨earlier, ht, hhead, hchain, hfin, hall⟩ := ih (round g) final h
      refine ⟨g :: earlier, ?_, rfl, ?_, hfin, ?_⟩
      · simp [battleTrace, hf, ht]
      · cases earlier with
        | nil =>
          simp only [List.nil_append, List.head?_cons, Option.some.injEq] at hhead
          exact ⟨hhead, trivial⟩
        | cons s rest =>
          simp only [List.cons_append, List.head?_cons, Option.some.injEq] at hhead
          exact ⟨hhead, hchain⟩
      · intro s hs
        rcases List.mem_cons.mp hs with h1 | h1
        · rw [h1]; exact hf
        · exact hall s h1
    · simp only [battleLoop, hf, Bool.false_eq_true, if_false, Option.some.injEq] at h
      subst h
      refine ⟨[], ?_, rfl, trivial, by simpa using hf, by simp⟩
      simp [battleTrace, hf]

theorem fighting_iff (g : Game) :
    fighting g = true ↔ 0 < Mob.getHP g.enemyCtx ∧ 0 < Mob.getHP g.meCtx := by
  simp [fighting]

theorem battleLoop_done (fuel : Nat) (g : Game) (h : fighting g = false) :
    battleLoop fuel g = some g := by
  cases fuel <;> simp [battleLoop, h]

theorem battleLoop_step (fuel : Nat) (g : Game) (h : fighting g = true) :
    battleLoop (fuel + 1) g = battleLoop fuel (round g) := by
  simp [battleLoop, h]

theorem battleTrace_done (fuel : Nat) (g : Game) (h : fighting g = false) :
    battleTrace fuel g = some [g] := by
  cases fuel <;> simp [battleTrace, h]

theorem battleTrace_step (fuel : Nat) (g : Game) (h : fighting g = true) :
    battleTrace (fuel + 1) g = (battleTrace fuel (round g)).map (fun rest => g :: rest) := by
  simp [battleTrace, h]

theorem quitLoop_no_q (tokens : List String) (out : List Out) (h : "q" ∉ tokens) :
    quitLoop tokens out = none := by
  induction tokens with
  | nil => rfl
  | cons t rest ih =>
    have ht : ¬ t = "q" := fun e => h (by simp [e])
    have hrest : "q" ∉ rest := fun e => h (List.mem_cons_of_mem t e)
    simp [quitLoop, ht, ih hrest]

theorem quitLoop_first_q (pre post : List String) (out : List Out) (h : "q" ∉ pre) :
    quitLoop (pre ++ "q" :: post) out =
      some { status := 0, read := pre.length + 1, unread := post, out := out } := by
  induction pre with
  | nil => simp [quitLoop]
  | cons t rest ih =>
    have ht : ¬ t = "q" := fun e => h (by simp [e])
    have hrest : "q" ∉ rest := fun e => h (List.mem_cons_of_mem t e)
    simp [quitLoop, ht, ih hrest]

theorem round_values (g : Game) :
    Mob.getHP (round g).enemyCtx = subInt (Mob.getHP g.enemyCtx) (Mob.getATK g.meCtx) ∧
    Mob.getHP (round g).meCtx = subInt (Mob.getHP g.meCtx) (Mob.getATK g.enemyCtx) :=
  ⟨rfl, rfl⟩

theorem resolve_undefined (g : Game)
    (h : g.enemy.unsafeGoldPouch = IntPtr.indeterminate) : resolve g = none := by
  simp [resolve, Mob.destroy, Game.enemyCtx, h, IntPtr.deletable]

theorem resolve_defined (g : Game) (h : g.enemy.unsafeGoldPouch.deletable = true) :
    resolve g = some
      { objectCount := g.objectCount
        mobCount := g.mobCount
        me := g.me
        released := g.enemy.unsafeGoldPouch
        out := g.out ++ [if 0 < Mob.getHP g.meCtx then Out.won else Out.lost]
        outcome := if 0 < Mob.getHP g.meCtx then Outcome.win else Outcome.loss } := by
  by_cases hp : 0 < g.me.hp <;>
    simp [resolve, Mob.destroy, Mob.getHP, Game.enemyCtx, Game.meCtx, h, hp]

theorem round_enemy_pouch (g : Game) :
    (round g).enemy.unsafeGoldPouch = g.enemy.unsafeGoldPouch := rfl

theorem battleLoop_enemy_pouch :
    ∀ (fuel : Nat) (g final : Game), battleLoop fuel g = some final →
      final.enemy.unsafeGoldPouch = g.enemy.unsafeGoldPouch := by
  intro fuel
  induction fuel with
  | zero =>
    intro g final h
    by_cases hf : fighting g = true
    · simp [battleLoop, hf] at h
    · simp only [battleLoop, hf, Bool.false_eq_true, if_false, Option.some.injEq] at h
      rw [← h]
  | succ n ih =>
    intro g final h
    by_cases hf : fighting g = true
    · simp only [battleLoop, hf, if_true] at h
      rw [ih (round g) final h, round_enemy_pouch]
    · simp only [battleLoop, hf, Bool.false_eq_true, if_false, Option.some.injEq] at h
      rw [← h]

theorem setup_enemy_pouch (h : Int) :
    (setup h).enemy.unsafeGoldPouch = IntPtr.indeterminate := rfl

/-! ## The `Mob` class -/

/-- C1: after either constructor and any sequence of setter calls, `getHP`, `getATK`,
`getDEF` and `getName` return the value most recently written to their field: the argument
of the last call of the corresponding setter, else the constructor argument (the default
for `Mob()`). The arguments range over all integers and all strings, so no value is
rejected or altered. -/
theorem getters_return_last_written (calls : List SetterCall) (n : String)
    (h a d mobCount : Int) :
    readAll (execCalls calls (Mob.newWith n h a d mobCount)) = lastWritten calls h a d n ∧
    readAll (execCalls calls (Mob.new mobCount)) = lastWritten calls 15 15 15 "John Doe" :=
  ⟨readAll_execCalls calls (Mob.newWith n h a d mobCount),
    readAll_execCalls calls (Mob.new mobCount)⟩

/-- C2 (the code at the failing input): neither constructor increments `mobCount`. From the
initial value 0 of the static, `getMobCount` returns 0 after any sequence of constructions
and destructions, in particular after the single construction `Mob me;`, where the number
of constructions is 1; the sibling counter of `Tree` does go from 0 to 1 on a
construction. -/
theorem getMobCount_stays_zero (events : List MobEvent) (m : Mob) :
    Mob.getMobCount { mobCount := mobCountAfter events 0, this := m } = 0 ∧
    constructions [MobEvent.construct] = 1 ∧
    Mob.getMobCount (Mob.new 0) = 0 ∧
    Tree.getObjectCount (Tree.new 0) = 1 := by
  refine ⟨?_, rfl, rfl, by decide⟩
  show mobCountAfter events 0 = 0
  exact mobCountAfter_eq events 0

/-- C9: `Mob()` produces a Mob named "John Doe" whose hit points, attack and defense are
all 15. -/
theorem default_constructor_values (mobCount : Int) :
    Mob.getName (Mob.new mobCount) = "John Doe" ∧
    Mob.getHP (Mob.new mobCount) = 15 ∧
    Mob.getATK (Mob.new mobCount) = 15 ∧
    Mob.getDEF (Mob.new mobCount) = 15 :=
  ⟨rfl, rfl, rfl, rfl⟩

/-- C10: each setter writes only its own field. `setHP` leaves name, attack, defense, the
gold-pouch pointer and the creation counter as they were, and likewise `setATK`, `setDEF`
and `setName` leave every field but their own, and the counter, as they were. -/
theorem setters_write_own_field_only (c : MobCtx) (v : Int) (n : String) :
    (Mob.getName (Mob.setHP v c) = Mob.getName c ∧
      Mob.getATK (Mob.setHP v c) = Mob.getATK c ∧
      Mob.getDEF (Mob.setHP v c) = Mob.getDEF c ∧
      (Mob.setHP v c).this.unsafeGoldPouch = c.this.unsafeGoldPouch ∧
      Mob.getMobCount (Mob.setHP v c) = Mob.getMobCount c) ∧
    (Mob.getName (Mob.setATK v c) = Mob.getName c ∧
      Mob.getHP (Mob.setATK v c) = Mob.getHP c ∧
      Mob.getDEF (Mob.setATK v c) = Mob.getDEF c ∧
      (Mob.setATK v c).this.unsafeGoldPouch = c.this.unsafeGoldPouch ∧
      Mob.getMobCount (Mob.setATK v c) = Mob.getMobCount c) ∧
    (Mob.getName (Mob.setDEF v c) = Mob.getName c ∧
      Mob.getHP (Mob.setDEF v c) = Mob.getHP c ∧
      Mob.getATK (Mob.setDEF v c) = Mob.getATK c ∧
      (Mob.setDEF v c).this.unsafeGoldPouch = c.this.unsafeGoldPouch ∧
      Mob.getMobCount (Mob.setDEF v c) = Mob.getMobCount c) ∧
    (Mob.getHP (Mob.setName n c) = Mob.getHP c ∧
      Mob.getATK (Mob.setName n c) = Mob.getATK c ∧
      Mob.getDEF (Mob.setName n c) = Mob.getDEF c ∧
      (Mob.setName n c).this.unsafeGoldPouch = c.this.unsafeGoldPouch ∧
      Mob.getMobCount (Mob.setName n c) = Mob.getMobCount c) :=
  ⟨⟨rfl, rfl, rfl, rfl, rfl⟩, ⟨rfl, rfl, rfl, rfl, rfl⟩, ⟨rfl, rfl, rfl, rfl, rfl⟩,
    ⟨rfl, rfl, rfl, rfl, rfl⟩⟩

/-! ## The battle loop -/

/-- C3: one round from player hit points `P`, attack `a` and enemy hit points `E`, attack
`b` leaves the enemy with `E - a` and the player with `P - b`, the differences being those
of `int` (and the exact ones whenever these are representable); the enemy is updated first
and the player second, on the state the first update left; attack, defense and name of
both are unchanged. -/
theorem round_effect (g : Game) :
    (Mob.getHP (round g).enemyCtx = subInt (Mob.getHP g.enemyCtx) (Mob.getATK g.meCtx) ∧
      Mob.getHP (round g).meCtx = subInt (Mob.getHP g.meCtx) (Mob.getATK g.enemyCtx)) ∧
    (isInt (Mob.getHP g.enemyCtx - Mob.getATK g.meCtx) →
      Mob.getHP (round g).enemyCtx = Mob.getHP g.enemyCtx - Mob.getATK g.meCtx) ∧
    (isInt (Mob.getHP g.meCtx - Mob.getATK g.enemyCtx) →
      Mob.getHP (round g).meCtx = Mob.getHP g.meCtx - Mob.getATK g.enemyCtx) ∧
    ((round g).enemy = (hitEnemy g).enemy ∧ (round g).me = (hitMe (hitEnemy g)).me ∧
      (hitEnemy g).me = g.me) ∧
    (Mob.getATK (round g).meCtx = Mob.getATK g.meCtx ∧
      Mob.getDEF (round g).meCtx = Mob.getDEF g.meCtx ∧
      Mob.getName (round g).meCtx = Mob.getName g.meCtx) ∧
    (Mob.getATK (round g).enemyCtx = Mob.getATK g.enemyCtx ∧
      Mob.getDEF (round g).enemyCtx = Mob.getDEF g.enemyCtx ∧
      Mob.getName (round g).enemyCtx = Mob.getName g.enemyCtx) :=
  ⟨⟨rfl, rfl⟩, fun h => subInt_exact _ _ h, fun h => subInt_exact _ _ h, ⟨rfl, rfl, rfl⟩,
    ⟨rfl, rfl, rfl⟩, ⟨rfl, rfl, rfl⟩⟩

/-- Witness of `round_effect` (C3) at the driver's first state for input 10. -/
theorem round_effect_witness :
    isInt (Mob.getHP (setup 10).enemyCtx - Mob.getATK (setup 10).meCtx) ∧
    isInt (Mob.getHP (setup 10).meCtx - Mob.getATK (setup 10).enemyCtx) ∧
    Mob.getHP (round (setup 10)).enemyCtx = 10 - 2 ∧
    Mob.getHP (round (setup 10)).meCtx = 10 - 10 :=
  ⟨by decide, by decide, (round_effect (setup 10)).2.1 (by decide),
    (round_effect (setup 10)).2.2.1 (by decide)⟩

/-- C4: in every terminating run of the battle loop, the states in which the condition is
evaluated form a chain of rounds from the start state to the final state; in the final
state the enemy's or the player's hit points are at most 0, and in every earlier state,
the states rounds are executed from, both are greater than 0. -/
theorem battle_loop_stops_at_first_nonpositive (fuel : Nat) (g final : Game)
    (h : battleLoop fuel g = some final) :
    ∃ earlier : List Game,
      battleTrace fuel g = some (earlier ++ [final]) ∧
      (earlier ++ [final]).head? = some g ∧
      roundChain (earlier ++ [final]) ∧
      (Mob.getHP final.enemyCtx ≤ 0 ∨ Mob.getHP final.meCtx ≤ 0) ∧
      ∀ s ∈ earlier, 0 < Mob.getHP s.enemyCtx ∧ 0 < Mob.getHP s.meCtx := by
  obtain ⟨earlier, ht, hhead, hchain, hfin, hall⟩ := battleLoop_trace fuel g final h
  refine ⟨earlier, ht, hhead, hchain, ?_, fun s hs => (fighting_iff s).mp (hall s hs)⟩
  by_contra hcon
  have hpos : 0 < Mob.getHP final.enemyCtx ∧ 0 < Mob.getHP final.meCtx := by
    constructor <;> omega
  rw [(fighting_iff final).mpr hpos] at hfin
  exact Bool.noConfusion hfin

/-- Witness of `battle_loop_stops_at_first_nonpositive` (C4): the driver's run on input 45,
which takes five rounds. -/
theorem battle_loop_stops_at_first_nonpositive_witness :
    battleLoop 5 (setup 45) = some (round^[5] (setup 45)) ∧
    ∃ earlier : List Game,
      battleTrace 5 (setup 45) = some (earlier ++ [round^[5] (setup 45)]) ∧
      (earlier ++ [round^[5] (setup 45)]).head? = some (setup 45) ∧
      roundChain (earlier ++ [round^[5] (setup 45)]) ∧
      (Mob.getHP (round^[5] (setup 45)).enemyCtx ≤ 0 ∨
        Mob.getHP (round^[5] (setup 45)).meCtx ≤ 0) ∧
      ∀ s ∈ earlier, 0 < Mob.getHP s.enemyCtx ∧ 0 < Mob.getHP s.meCtx :=
  ⟨by decide,
    battle_loop_stops_at_first_nonpositive 5 (setup 45) (round^[5] (setup 45)) (by decide)⟩

/-- C5 (the code on the runs of the driver): the check `me.getHP()>0` comes after
`delete enemyPtr;`, and in the state the battle loop leaves, on any input, the pointer the
enemy's destructor hands to `delete` is the never-assigned one. The behaviour is undefined
from there, so no outcome is reported, whatever the player's hit points are. -/
theorem outcome_not_reported (fuel : Nat) (h : Int) (final : Game)
    (hrun : battleLoop fuel (setup h) = some final) :
    (Mob.destroy final.enemyCtx).2 = IntPtr.indeterminate ∧
    (Mob.destroy final.enemyCtx).2.deletable = false ∧
    resolve final = none := by
  have hp : final.enemy.unsafeGoldPouch = IntPtr.indeterminate := by
    rw [battleLoop_enemy_pouch fuel (setup h) final hrun, setup_enemy_pouch]
  have hd : (Mob.destroy final.enemyCtx).2 = IntPtr.indeterminate := hp
  exact ⟨hd, by rw [hd]; rfl, resolve_undefined final hp⟩

/-- Witness of `outcome_not_reported` (C5): the driver on input 60, where the loop leaves
the player at 10 hit points and the enemy at 0, and no win is reported. -/
theorem outcome_not_reported_witness :
    battleLoop 5 (setup 60) = some (round^[5] (setup 60)) ∧
    Mob.getHP (round^[5] (setup 60)).meCtx = 10 ∧
    Mob.getHP (round^[5] (setup 60)).enemyCtx = 0 ∧
    (Mob.destroy (round^[5] (setup 60)).enemyCtx).2 = IntPtr.indeterminate ∧
    resolve (round^[5] (setup 60)) = none :=
  ⟨by decide, by decide, by decide,
    (outcome_not_reported 5 60 (round^[5] (setup 60)) (by decide)).1,
    (outcome_not_reported 5 60 (round^[5] (setup 60)) (by decide)).2.2⟩

/-- C6 (the code at the failing input): with input 10 the driver starts from player hp 10,
atk 2, def 10 and enemy hp 10, atk 10, def 10; whatever number of rounds (at least one) the
loop is allowed, it executes exactly one, which leaves enemy hp 8 and player hp 0, and the
loop ends there. Then `delete enemyPtr;` hands the never-assigned pointer of the enemy to
`delete`, and no outcome is reported. -/
theorem scenario_input_10 (fuel : Nat) :
    (Mob.getHP (setup 10).meCtx = 10 ∧ Mob.getATK (setup 10).meCtx = 2 ∧
      Mob.getDEF (setup 10).meCtx = 10) ∧
    (Mob.getHP (setup 10).enemyCtx = 10 ∧ Mob.getATK (setup 10).enemyCtx = 10 ∧
      Mob.getDEF (setup 10).enemyCtx = 10) ∧
    battleTrace (fuel + 1) (setup 10) = some [setup 10, round (setup 10)] ∧
    battleLoop (fuel + 1) (setup 10) = some (round (setup 10)) ∧
    Mob.getHP (round (setup 10)).enemyCtx = 8 ∧
    Mob.getHP (round (setup 10)).meCtx = 0 ∧
    (round (setup 10)).out =
      [Out.hello, Out.askHP, Out.fight, Out.yourHP 0, Out.enemyHP 8] ∧
    (Mob.destroy (round (setup 10)).enemyCtx).2 = IntPtr.indeterminate ∧
    resolve (round (setup 10)) = none := by
  have h0 : fighting (setup 10) = true := by decide
  have h1 : fighting (round (setup 10)) = false := by decide
  refine ⟨by decide, by decide, ?_, ?_, by decide, by decide, by decide, rfl,
    resolve_undefined _ rfl⟩
  · rw [battleTrace_step fuel _ h0, battleTrace_done fuel _ h1]; rfl
  · rw [battleLoop_step fuel _ h0, battleLoop_done fuel _ h1]

/-- C8: when the tokens still to be read contain "q", they split at the first token equal
to "q" and the quit loop ends the process with status 0 on reading that token: the tokens
before it are read and dropped and the output is what it was, the tokens after it are left
unread, and on the tokens before it alone the loop does not end. "qq", "Q" and "quit" do
not end it, and on "hello", "no", "q" it ends after the third token. -/
theorem quit_loop_exits_on_first_q (tokens : List String) (out : List Out)
    (h : "q" ∈ tokens) :
    (∃ pre post : List String,
      tokens = pre ++ "q" :: post ∧ "q" ∉ pre ∧
      quitLoop tokens out =
        some { status := 0, read := pre.length + 1, unread := post, out := out } ∧
      quitLoop pre out = none) ∧
    quitLoop ["qq", "Q", "quit"] out = none ∧
    quitLoop ["qq", "Q", "quit", "q", "q"] out =
      some { status := 0, read := 4, unread := ["q"], out := out } ∧
    quitLoop ["hello", "no", "q"] out =
      some { status := 0, read := 3, unread := [], out := out } := by
  obtain ⟨pre, post, hsplit, hpre⟩ := List.eq_append_cons_of_mem h
  refine ⟨⟨pre, post, hsplit, hpre, ?_, quitLoop_no_q pre out hpre⟩,
    quitLoop_no_q _ out (by decide),
    quitLoop_first_q ["qq", "Q", "quit"] ["q"] out (by decide),
    quitLoop_first_q ["hello", "no"] [] out (by decide)⟩
  rw [hsplit]
  exact quitLoop_first_q pre post out hpre

/-- Witness of `quit_loop_exits_on_first_q` (C8) at the tokens "hello", "no", "q", "later"
after the output of a lost battle. -/
theorem quit_loop_exits_on_first_q_witness :
    "q" ∈ ["hello", "no", "q", "later"] ∧
    ∃ pre post : List String,
      ["hello", "no", "q", "later"] = pre ++ "q" :: post ∧ "q" ∉ pre ∧
      quitLoop ["hello", "no", "q", "later"] [Out.hello, Out.askHP, Out.lost] =
        some { status := 0, read := pre.length + 1, unread := post,
               out := [Out.hello, Out.askHP, Out.lost] } ∧
      quitLoop pre [Out.hello, Out.askHP, Out.lost] = none :=
  ⟨by decide,
    (quit_loop_exits_on_first_q ["hello", "no", "q", "later"]
      [Out.hello, Out.askHP, Out.lost] (by decide)).1⟩

/-! ## Lemmas on the driver's run -/

theorem ceilTenth_spec (h : Int) : 10 * (ceilTenth h - 1) < h ∧ h ≤ 10 * ceilTenth h := by
  unfold ceilTenth
  omega

theorem driverRounds_le (h : Int) : driverRounds h ≤ 5 := by
  unfold driverRounds
  split <;> omega

theorem driverRounds_before (h : Int) (i : Nat) (hi : i < driverRounds h) :
    0 < 10 - 2 * (i : Int) ∧ 0 < h - 10 * (i : Int) := by
  unfold driverRounds ceilTenth at hi
  split at hi <;> omega

theorem driverRounds_at (h : Int) :
    10 - 2 * (driverRounds h : Int) ≤ 0 ∨ h - 10 * (driverRounds h : Int) ≤ 0 := by
  unfold driverRounds ceilTenth
  split <;> omega

theorem driverAt_setup (h : Int) : DriverAt h 0 (setup h) := by
  refine ⟨rfl, rfl, ?_, rfl⟩
  show h = h - 10 * ((0 : Nat) : Int)
  simp

theorem driverAt_round (h : Int) (hh : isInt h) (k : Nat) (g : Game)
    (hg : DriverAt h k g) (hf : fighting g = true) : DriverAt h (k + 1) (round g) := by
  obtain ⟨ha, hb, hP, hE⟩ := hg
  obtain ⟨hEpos, hPpos⟩ := (fighting_iff g).mp hf
  unfold isInt INT_MIN INT_MAX at hh
  refine ⟨ha, hb, ?_, ?_⟩
  · rw [(round_values g).2, hP, hb]
    unfold subInt wrapInt
    push_cast
    omega
  · rw [(round_values g).1, hE, ha]
    unfold subInt wrapInt
    push_cast
    omega

theorem firstStates_zero (g : Game) : firstStates 0 g = [g] := rfl

theorem firstStates_succ (n : Nat) (g : Game) :
    firstStates (n + 1) g = g :: firstStates n (round g) := by
  unfold firstStates
  rw [List.range_succ_eq_map (n + 1), List.map_cons, List.map_map]
  rfl

theorem firstStates_length (n : Nat) (g : Game) : (firstStates n g).length = n + 1 := by
  simp [firstStates]

theorem firstStates_concat (n : Nat) (g : Game) :
    firstStates n g = (List.range n).map (fun i => round^[i] g) ++ [round^[n] g] := by
  unfold firstStates
  rw [List.range_succ, List.map_append]
  rfl

theorem firstStates_getLast (n : Nat) (g : Game) :
    (firstStates n g).getLast? = some (round^[n] g) := by
  rw [firstStates_concat]
  simp

theorem firstStates_dropLast (n : Nat) (g : Game) :
    (firstStates n g).dropLast = (List.range n).map (fun i => round^[i] g) := by
  rw [firstStates_concat]
  simp

theorem battle_run (h : Int) (hh : isInt h) :
    ∀ (n k : Nat) (g : Game) (fuel : Nat), DriverAt h k g →
      (∀ i < n, 0 < 10 - 2 * ((k + i : Nat) : Int) ∧ 0 < h - 10 * ((k + i : Nat) : Int)) →
      (10 - 2 * ((k + n : Nat) : Int) ≤ 0 ∨ h - 10 * ((k + n : Nat) : Int) ≤ 0) →
      n ≤ fuel →
      battleTrace fuel g = some (firstStates n g) ∧
      battleLoop fuel g = some (round^[n] g) ∧
      ∀ i ≤ n, DriverAt h (k + i) (round^[i] g) := by
  intro n
  induction n with
  | zero =>
    intro k g fuel hg _ hstop _
    have hf : fighting g = false := by
      cases hfg : fighting g with
      | false => rfl
      | true =>
        obtain ⟨hE, hP⟩ := (fighting_iff g).mp hfg
        rw [hg.2.2.2] at hE
        rw [hg.2.2.1] at hP
        simp only [Nat.add_zero] at hstop
        omega
    refine ⟨by rw [battleTrace_done fuel g hf, firstStates_zero],
      battleLoop_done fuel g hf, ?_⟩
    intro i hi
    have hi0 : i = 0 := by omega
    subst hi0
    exact hg
  | succ n ih =>
    intro k g fuel hg hbefore hstop hfuel
    have hf : fighting g = true := by
      apply (fighting_iff g).mpr
      have h0 := hbefore 0 (by omega)
      simp only [Nat.add_zero] at h0
      rw [hg.2.2.2, hg.2.2.1]
      exact h0
    obtain ⟨fuel', hfuel'⟩ : ∃ fuel', fuel = fuel' + 1 := ⟨fuel - 1, by omega⟩
    subst hfuel'
    have hnext := driverAt_round h hh k g hg hf
    have hb' : ∀ i < n, 0 < 10 - 2 * ((k + 1 + i : Nat) : Int) ∧
        0 < h - 10 * ((k + 1 + i : Nat) : Int) := by
      intro i hi
      have := hbefore (i + 1) (by omega)
      have e : k + (i + 1) = k + 1 + i := by omega
      rw [e] at this
      exact this
    have hs' : 10 - 2 * ((k + 1 + n : Nat) : Int) ≤ 0 ∨
        h - 10 * ((k + 1 + n : Nat) : Int) ≤ 0 := by
      have e : k + (n + 1) = k + 1 + n := by omega
      rw [e] at hstop
      exact hstop
    obtain ⟨ht, hl, hall⟩ := ih (k + 1) (round g) fuel' hnext hb' hs' (by omega)
    refine ⟨?_, ?_, ?_⟩
    · rw [battleTrace_step fuel' g hf, ht, firstStates_succ]
      rfl
    · rw [battleLoop_step fuel' g hf, hl, Function.iterate_succ_apply]
    · intro i hi
      cases i with
      | zero => exact hg
      | succ j =>
        have := hall j (by omega)
        have e : k + 1 + j = k + (j + 1) := by omega
        rw [e] at this
        rw [Function.iterate_succ_apply]
        exact this

theorem driver_run (h : Int) (hh : isInt h) (extra : Nat) :
    battleTrace (5 + extra) (setup h) = some (firstStates (driverRounds h) (setup h)) ∧
    battleLoop (5 + extra) (setup h) = some (round^[driverRounds h] (setup h)) ∧
    ∀ i ≤ driverRounds h, DriverAt h i (round^[i] (setup h)) := by
  have hle := driverRounds_le h
  obtain ⟨ht, hl, hall⟩ := battle_run h hh (driverRounds h) 0 (setup h) (5 + extra)
    (driverAt_setup h)
    (fun i hi => by
      have := driverRounds_before h i hi
      simpa using this)
    (by
      have := driverRounds_at h
      simpa using this)
    (by omega)
  refine ⟨ht, hl, fun i hi => ?_⟩
  have := hall i hi
  simpa using this

theorem ceilTenth_eq_ceil (h : Int) : ⌈(h : ℚ) / 10⌉ = ceilTenth h := by
  obtain ⟨h1, h2⟩ := ceilTenth_spec h
  rw [Int.ceil_eq_iff]
  constructor
  · rw [lt_div_iff₀ (by norm_num : (0 : ℚ) < 10)]
    have hq : ((10 * (ceilTenth h - 1) : Int) : ℚ) < (h : ℚ) := by exact_mod_cast h1
    push_cast at hq
    linarith
  · rw [div_le_iff₀ (by norm_num : (0 : ℚ) < 10)]
    have hq : (h : ℚ) ≤ ((10 * ceilTenth h : Int) : ℚ) := by exact_mod_cast h2
    push_cast at hq
    linarith

theorem round_withDefense (a b : Int) (g : Game) :
    round (withDefense a b g) = withDefense a b (round g) := rfl

theorem fighting_withDefense (a b : Int) (g : Game) :
    fighting (withDefense a b g) = fighting g := rfl

theorem battleTrace_withDefense (a b : Int) :
    ∀ (fuel : Nat) (g : Game),
      battleTrace fuel (withDefense a b g) =
        (battleTrace fuel g).map (List.map (withDefense a b)) := by
  intro fuel
  induction fuel with
  | zero =>
    intro g
    cases hf : fighting g <;> simp [battleTrace, fighting_withDefense, hf]
  | succ n ih =>
    intro g
    cases hf : fighting g
    · simp [battleTrace, fighting_withDefense, hf]
    · simp only [battleTrace, fighting_withDefense, hf, if_true, round_withDefense, ih]
      cases battleTrace n (round g) <;> simp

theorem battleLoop_withDefense (a b : Int) :
    ∀ (fuel : Nat) (g : Game),
      battleLoop fuel (withDefense a b g) = (battleLoop fuel g).map (withDefense a b) := by
  intro fuel
  induction fuel with
  | zero =>
    intro g
    cases hf : fighting g <;> simp [battleLoop, fighting_withDefense, hf]
  | succ n ih =>
    intro g
    cases hf : fighting g
    · simp [battleLoop, fighting_withDefense, hf]
    · simp only [battleLoop, fighting_withDefense, hf, if_true, round_withDefense, ih]

theorem execGetters_eq (calls : List GetterCall) : ∀ c : MobCtx, execGetters calls c = c := by
  induction calls with
  | nil => intro c; rfl
  | cons call rest ih =>
    intro c
    have step : execGetters (call :: rest) c = execGetters rest (call.exec c).2 := rfl
    rw [step, ih]
    cases call <;> rfl

theorem execCalls_pouch (calls : List SetterCall) :
    ∀ c : MobCtx, (execCalls calls c).this.unsafeGoldPouch = c.this.unsafeGoldPouch := by
  induction calls with
  | nil => intro c; rfl
  | cons call rest ih =>
    intro c
    rw [execCalls_cons, ih]
    cases call <;> rfl

theorem resolve_withDefense_outcome (a b : Int) (g : Game) :
    (resolve (withDefense a b g)).map (fun r => r.outcome) =
      (resolve g).map (fun r => r.outcome) := by
  cases hd : g.enemy.unsafeGoldPouch.deletable <;>
    by_cases hp : 0 < g.me.hp <;>
    simp [resolve, withDefense, Game.setMe, Game.setEnemy, Mob.setDEF, Mob.destroy,
      Mob.getHP, Game.enemyCtx, Game.meCtx, hd, hp]

theorem resolve_withDefense_out (a b : Int) (g : Game) :
    (resolve (withDefense a b g)).map (fun r => r.out) =
      (resolve g).map (fun r => r.out) := by
  cases hd : g.enemy.unsafeGoldPouch.deletable <;>
    by_cases hp : 0 < g.me.hp <;>
    simp [resolve, withDefense, Game.setMe, Game.setEnemy, Mob.setDEF, Mob.destroy,
      Mob.getHP, Game.enemyCtx, Game.meCtx, hd, hp]

/-! ## Relational properties -/

/-- C11: defense is never applied. A run from the state that differs from `g` in the two
defense values only visits, state by state, the states of the run from `g` with those
defense values put in: the number of states (so the number of rounds), the hit points of
both combatants after every round, the output, what the win/loss check tests and what is
reported after the loop (an outcome, or none where `delete enemyPtr;` is undefined) are the
same, and one run ends exactly when the other does. -/
theorem defense_never_applied (fuel : Nat) (g : Game) (dMe dEnemy : Int) :
    (Mob.getDEF (withDefense dMe dEnemy g).meCtx = dMe ∧
      Mob.getDEF (withDefense dMe dEnemy g).enemyCtx = dEnemy ∧
      hitPoints (withDefense dMe dEnemy g) = hitPoints g ∧
      Mob.getATK (withDefense dMe dEnemy g).meCtx = Mob.getATK g.meCtx ∧
      Mob.getATK (withDefense dMe dEnemy g).enemyCtx = Mob.getATK g.enemyCtx ∧
      Mob.getName (withDefense dMe dEnemy g).meCtx = Mob.getName g.meCtx ∧
      Mob.getName (withDefense dMe dEnemy g).enemyCtx = Mob.getName g.enemyCtx) ∧
    battleTrace fuel (withDefense dMe dEnemy g) =
      (battleTrace fuel g).map (List.map (withDefense dMe dEnemy)) ∧
    (battleTrace fuel (withDefense dMe dEnemy g)).map List.length =
      (battleTrace fuel g).map List.length ∧
    (battleTrace fuel (withDefense dMe dEnemy g)).map (List.map hitPoints) =
      (battleTrace fuel g).map (List.map hitPoints) ∧
    (battleLoop fuel (withDefense dMe dEnemy g)).map
        (fun s => (resolve s).map (fun r => r.outcome)) =
      (battleLoop fuel g).map (fun s => (resolve s).map (fun r => r.outcome)) ∧
    (battleLoop fuel (withDefense dMe dEnemy g)).map
        (fun s => (resolve s).map (fun r => r.out)) =
      (battleLoop fuel g).map (fun s => (resolve s).map (fun r => r.out)) ∧
    (battleLoop fuel (withDefense dMe dEnemy g)).map
        (fun s => decide (0 < Mob.getHP s.meCtx)) =
      (battleLoop fuel g).map (fun s => decide (0 < Mob.getHP s.meCtx)) := by
  have hp : hitPoints ∘ withDefense dMe dEnemy = hitPoints := rfl
  have ho := resolve_withDefense_outcome dMe dEnemy
  have hout := resolve_withDefense_out dMe dEnemy
  have hchk : ∀ s : Game, Mob.getHP (withDefense dMe dEnemy s).meCtx = Mob.getHP s.meCtx :=
    fun _ => rfl
  refine ⟨⟨rfl, rfl, rfl, rfl, rfl, rfl, rfl⟩, battleTrace_withDefense dMe dEnemy fuel g,
    ?_, ?_, ?_, ?_, ?_⟩
  · rw [battleTrace_withDefense]
    cases battleTrace fuel g <;> simp
  · rw [battleTrace_withDefense]
    cases battleTrace fuel g <;> simp [hp]
  · rw [battleLoop_withDefense]
    cases battleLoop fuel g <;> simp [ho]
  · rw [battleLoop_withDefense]
    cases battleLoop fuel g <;> simp [hout]
  · rw [battleLoop_withDefense]
    cases battleLoop fuel g <;> simp [hchk]

/-- C12: getters are read-only. A call of `getHP`, `getATK`, `getDEF`, `getName` or
`getMobCount` leaves the receiver and the static counter as they were, so does any
sequence of such calls, and a getter called again, directly or after other getter calls,
returns the value it returned before. -/
theorem getters_read_only (call : GetterCall) (calls : List GetterCall) (c : MobCtx) :
    (call.exec c).2 = c ∧
    (call.exec (call.exec c).2).1 = (call.exec c).1 ∧
    execGetters calls c = c ∧
    (call.exec (execGetters calls c)).1 = (call.exec c).1 := by
  have h1 : (call.exec c).2 = c := by cases call <;> rfl
  refine ⟨h1, by rw [h1], execGetters_eq calls c, by rw [execGetters_eq]⟩

/-- C13: a round is logically simultaneous. The round of the code (enemy first, player
second) gives the same state as the round whose two new hit points are computed from the
values before the round, and the same state as the round with the two updates in the
opposite order. -/
theorem round_is_simultaneous (g : Game) :
    round g = roundSimultaneous g ∧
    round g = roundOpposite g ∧
    hitMe (hitEnemy g) = simultaneousHits g ∧
    hitEnemy (hitMe g) = simultaneousHits g :=
  ⟨rfl, rfl, rfl, rfl⟩

/-! ## The driver on every input -/

/-- C14: hit points are not clamped at zero. For every `int` input `h` the driver's loop
ends, and the player's hit points in the state it leaves are `h` minus 10 times the number
of rounds executed; on input 5 the loop ends after one round with the player at -5. -/
theorem hit_points_not_clamped (h : Int) (hh : isInt h) (extra : Nat) :
    (∃ (trace : List Game) (final : Game),
      battleTrace (5 + extra) (setup h) = some trace ∧
      battleLoop (5 + extra) (setup h) = some final ∧
      trace.getLast? = some final ∧
      Mob.getHP final.meCtx = h - 10 * ((trace.length - 1 : Nat) : Int)) ∧
    (∃ final : Game,
      battleTrace (5 + extra) (setup 5) = some [setup 5, final] ∧
      battleLoop (5 + extra) (setup 5) = some final ∧
      Mob.getHP final.meCtx = -5 ∧ Mob.getHP final.meCtx < 0) := by
  constructor
  · obtain ⟨ht, hl, hall⟩ := driver_run h hh extra
    have hN := hall (driverRounds h) (Nat.le_refl _)
    have hlen : (firstStates (driverRounds h) (setup h)).length - 1 = driverRounds h := by
      rw [firstStates_length]; rfl
    refine ⟨_, _, ht, hl, firstStates_getLast _ _, ?_⟩
    rw [hlen]; exact hN.2.2.1
  · have h0 : fighting (setup 5) = true := by decide
    have h1 : fighting (round (setup 5)) = false := by decide
    have e : 5 + extra = (4 + extra) + 1 := by omega
    refine ⟨round (setup 5), ?_, ?_, by decide, by decide⟩
    · rw [e, battleTrace_step _ _ h0, battleTrace_done _ _ h1]; rfl
    · rw [e, battleLoop_step _ _ h0, battleLoop_done _ _ h1]

/-- Witness of `hit_points_not_clamped` (C14) at input 5 with exactly five rounds
allowed. -/
theorem hit_points_not_clamped_witness :
    isInt 5 ∧
    ∃ (trace : List Game) (final : Game),
      battleTrace (5 + 0) (setup 5) = some trace ∧
      battleLoop (5 + 0) (setup 5) = some final ∧
      trace.getLast? = some final ∧
      Mob.getHP final.meCtx = 5 - 10 * ((trace.length - 1 : Nat) : Int) :=
  ⟨by decide, (hit_points_not_clamped 5 (by decide) 0).1⟩

/-- C15 (the code at the failing inputs): for every input `h <= 0` the driver executes no
round, whatever number of rounds is allowed: the loop leaves the start state, in which the
enemy's hit points are 10 and the player's are `h`; from any state in which the hit points
of one combatant are not greater than 0 the loop executes no round. Then
`delete enemyPtr;` hands the never-assigned pointer of the enemy to `delete`, and no
outcome is reported. -/
theorem no_round_for_nonpositive_input (fuel : Nat) (h : Int) (hh : h ≤ 0) :
    battleTrace fuel (setup h) = some [setup h] ∧
    battleLoop fuel (setup h) = some (setup h) ∧
    Mob.getHP (setup h).enemyCtx = 10 ∧
    Mob.getHP (setup h).meCtx = h ∧
    (Mob.destroy (setup h).enemyCtx).2 = IntPtr.indeterminate ∧
    resolve (setup h) = none ∧
    (∀ g : Game, ¬ (0 < Mob.getHP g.enemyCtx ∧ 0 < Mob.getHP g.meCtx) →
      battleTrace fuel g = some [g] ∧ battleLoop fuel g = some g) := by
  have hgen : ∀ g : Game, ¬ (0 < Mob.getHP g.enemyCtx ∧ 0 < Mob.getHP g.meCtx) →
      fighting g = false := by
    intro g hg
    cases hf : fighting g with
    | false => rfl
    | true => exact absurd ((fighting_iff g).mp hf) hg
  have hme : Mob.getHP (setup h).meCtx = h := rfl
  have hf : fighting (setup h) = false := hgen _ (by rw [hme]; omega)
  refine ⟨battleTrace_done fuel _ hf, battleLoop_done fuel _ hf, rfl, hme, rfl,
    resolve_undefined _ (setup_enemy_pouch h), ?_⟩
  intro g hg
  exact ⟨battleTrace_done fuel g (hgen g hg), battleLoop_done fuel g (hgen g hg)⟩

/-- Witness of `no_round_for_nonpositive_input` (C15) at input -3. -/
theorem no_round_for_nonpositive_input_witness :
    (-3 : Int) ≤ 0 ∧
    battleTrace 7 (setup (-3)) = some [setup (-3)] ∧
    Mob.getHP (setup (-3)).enemyCtx = 10 ∧
    Mob.getHP (setup (-3)).meCtx = -3 ∧
    resolve (setup (-3)) = none :=
  ⟨by decide, (no_round_for_nonpositive_input 7 (-3) (by decide)).1,
    (no_round_for_nonpositive_input 7 (-3) (by decide)).2.2.1,
    (no_round_for_nonpositive_input 7 (-3) (by decide)).2.2.2.1,
    (no_round_for_nonpositive_input 7 (-3) (by decide)).2.2.2.2.2.1⟩

/-- C16 (the code at the failing input): no constructor assigns `unsafeGoldPouch`. After
either constructor, and after any setter calls, the pointer is the indeterminate one and
the destructor hands that pointer to `delete`; in the driver on input 10 the pointer
released by `delete enemyPtr` is the never-assigned one, and what follows that statement
is undefined. -/
theorem gold_pouch_never_allocated (calls : List SetterCall) (n : String)
    (h a d mobCount : Int) :
    (Mob.new mobCount).this.unsafeGoldPouch = IntPtr.indeterminate ∧
    (Mob.newWith n h a d mobCount).this.unsafeGoldPouch = IntPtr.indeterminate ∧
    (Mob.destroy (execCalls calls (Mob.new mobCount))).2 = IntPtr.indeterminate ∧
    (Mob.destroy (execCalls calls (Mob.newWith n h a d mobCount))).2 =
      IntPtr.indeterminate ∧
    battleLoop 1 (setup 10) = some (round (setup 10)) ∧
    (Mob.destroy (round (setup 10)).enemyCtx).2 = IntPtr.indeterminate ∧
    resolve (round (setup 10)) = none :=
  ⟨rfl, rfl, execCalls_pouch calls (Mob.new mobCount),
    execCalls_pouch calls (Mob.newWith n h a d mobCount), by decide, rfl,
    resolve_undefined _ rfl⟩

/-- C17: for every `int` input `h` the driver's battle loop ends, whatever number of
rounds from 5 up it is allowed, and it executes at most 5 rounds: none when `h <= 0`, and
the lesser of 5 and the ceiling of `h / 10` when `h > 0`. -/
theorem driver_loop_ends_within_five_rounds (h : Int) (hh : isInt h) (extra : Nat) :
    ∃ (trace : List Game) (final : Game),
      battleTrace (5 + extra) (setup h) = some trace ∧
      battleLoop (5 + extra) (setup h) = some final ∧
      trace.getLast? = some final ∧
      trace.length - 1 ≤ 5 ∧
      (h ≤ 0 → trace.length - 1 = 0) ∧
      (0 < h → ((trace.length - 1 : Nat) : Int) = min 5 ⌈(h : ℚ) / 10⌉) := by
  obtain ⟨ht, hl, _⟩ := driver_run h hh extra
  have hlen : (firstStates (driverRounds h) (setup h)).length - 1 = driverRounds h := by
    rw [firstStates_length]; rfl
  refine ⟨_, _, ht, hl, firstStates_getLast _ _, ?_, ?_, ?_⟩
  · rw [hlen]; exact driverRounds_le h
  · intro hle
    rw [hlen]
    unfold driverRounds
    rw [if_pos hle]
  · intro hpos
    rw [hlen, ceilTenth_eq_ceil]
    have hc := ceilTenth_spec h
    unfold driverRounds
    rw [if_neg (by omega)]
    omega

/-- Witness of `driver_loop_ends_within_five_rounds` (C17) at input 45. -/
theorem driver_loop_ends_within_five_rounds_witness :
    isInt 45 ∧
    ∃ (trace : List Game) (final : Game),
      battleTrace (5 + 0) (setup 45) = some trace ∧
      battleLoop (5 + 0) (setup 45) = some final ∧
      trace.getLast? = some final ∧
      trace.length - 1 ≤ 5 ∧
      ((45 : Int) ≤ 0 → trace.length - 1 = 0) ∧
      ((0 : Int) < 45 → ((trace.length - 1 : Nat) : Int) = min 5 ⌈((45 : Int) : ℚ) / 10⌉) :=
  ⟨by decide, driver_loop_ends_within_five_rounds 45 (by decide) 0⟩

/-- C18 (the code on every input): for an `int` input `h` and any number of rounds
allowed from 5 up, the state the loop leaves depends on `h` alone, and the player's hit
points in it are greater than 0 exactly when `h > 50`. Input 50 leaves both combatants at
0; an input above 50 leaves the player at `h - 50` and the enemy at 0. Then
`delete enemyPtr;` hands the never-assigned pointer of the enemy to `delete`, and neither
a win nor a loss is reported. -/
theorem driver_outcome_not_reported (h : Int) (hh : isInt h) (extra : Nat) :
    ∃ final : Game,
      battleLoop (5 + extra) (setup h) = some final ∧
      (0 < Mob.getHP final.meCtx ↔ 50 < h) ∧
      (h = 50 → Mob.getHP final.meCtx = 0 ∧ Mob.getHP final.enemyCtx = 0) ∧
      (50 < h → Mob.getHP final.meCtx = h - 50 ∧ Mob.getHP final.enemyCtx = 0) ∧
      (Mob.destroy final.enemyCtx).2 = IntPtr.indeterminate ∧
      resolve final = none := by
  obtain ⟨_, hl, hall⟩ := driver_run h hh extra
  obtain ⟨_, _, hP, hE⟩ := hall (driverRounds h) (Nat.le_refl _)
  have hbig : 50 < h → driverRounds h = 5 := by
    intro hb
    unfold driverRounds ceilTenth
    rw [if_neg (by omega)]
    omega
  have hsmall : h ≤ 50 → h - 10 * (driverRounds h : Int) ≤ 0 := by
    intro hb
    unfold driverRounds ceilTenth
    split <;> omega
  have hptr : (round^[driverRounds h] (setup h)).enemy.unsafeGoldPouch =
      IntPtr.indeterminate := by
    rw [battleLoop_enemy_pouch _ _ _ hl, setup_enemy_pouch]
  refine ⟨_, hl, ?_, ?_, ?_, hptr, resolve_undefined _ hptr⟩
  · rw [hP]
    constructor
    · intro hw
      by_contra hn
      have := hsmall (by omega)
      omega
    · intro hb
      rw [hbig hb]
      push_cast
      omega
  · intro h50
    have hN : driverRounds h = 5 := by
      unfold driverRounds ceilTenth
      rw [if_neg (by omega)]
      omega
    exact ⟨by rw [hP, hN, h50]; decide, by rw [hE, hN]; decide⟩
  · intro hb
    exact ⟨by rw [hP, hbig hb]; push_cast; ring, by rw [hE, hbig hb]; decide⟩

/-- Witness of `driver_outcome_not_reported` (C18) at input 60, where the player is left
with 10 hit points and no win is reported. -/
theorem driver_outcome_not_reported_witness :
    isInt 60 ∧
    ∃ final : Game,
      battleLoop (5 + 0) (setup 60) = some final ∧
      (0 < Mob.getHP final.meCtx ↔ (50 : Int) < 60) ∧
      ((60 : Int) = 50 → Mob.getHP final.meCtx = 0 ∧ Mob.getHP final.enemyCtx = 0) ∧
      ((50 : Int) < 60 → Mob.getHP final.meCtx = 60 - 50 ∧ Mob.getHP final.enemyCtx = 0) ∧
      (Mob.destroy final.enemyCtx).2 = IntPtr.indeterminate ∧
      resolve final = none :=
  ⟨by decide, driver_outcome_not_reported 60 (by decide) 0⟩

/-- C19: for every 32-bit `int` input `h` no subtraction in the driver's battle loop
overflows. The loop ends, and in every state a round is executed from, the exact
difference for the enemy is one of 0, 2, 4, 6, 8 and the exact difference for the player
lies between -9 and `h - 10`; both are representable, so the hit points the round stores
are these exact differences. -/
theorem driver_subtractions_exact (h : Int) (hh : isInt h) (extra : Nat) :
    ∃ trace : List Game,
      battleTrace (5 + extra) (setup h) = some trace ∧
      ∀ s ∈ trace.dropLast,
        (Mob.getHP s.enemyCtx - Mob.getATK s.meCtx = 0 ∨
          Mob.getHP s.enemyCtx - Mob.getATK s.meCtx = 2 ∨
          Mob.getHP s.enemyCtx - Mob.getATK s.meCtx = 4 ∨
          Mob.getHP s.enemyCtx - Mob.getATK s.meCtx = 6 ∨
          Mob.getHP s.enemyCtx - Mob.getATK s.meCtx = 8) ∧
        (-9 ≤ Mob.getHP s.meCtx - Mob.getATK s.enemyCtx ∧
          Mob.getHP s.meCtx - Mob.getATK s.enemyCtx ≤ h - 10) ∧
        isInt (Mob.getHP s.enemyCtx - Mob.getATK s.meCtx) ∧
        isInt (Mob.getHP s.meCtx - Mob.getATK s.enemyCtx) ∧
        Mob.getHP (round s).enemyCtx = Mob.getHP s.enemyCtx - Mob.getATK s.meCtx ∧
        Mob.getHP (round s).meCtx = Mob.getHP s.meCtx - Mob.getATK s.enemyCtx := by
  obtain ⟨ht, _, hall⟩ := driver_run h hh extra
  refine ⟨_, ht, ?_⟩
  intro s hs
  rw [firstStates_dropLast, List.mem_map] at hs
  obtain ⟨i, hi, rfl⟩ := hs
  have hi' : i < driverRounds h := List.mem_range.mp hi
  obtain ⟨ha, hb, hP, hE⟩ := hall i (Nat.le_of_lt hi')
  obtain ⟨hEpos, hPpos⟩ := driverRounds_before h i hi'
  have hle := driverRounds_le h
  have hhr := hh
  unfold isInt INT_MIN INT_MAX at hhr
  have hIe : isInt (Mob.getHP (round^[i] (setup h)).enemyCtx -
      Mob.getATK (round^[i] (setup h)).meCtx) := by
    rw [hE, ha]; unfold isInt INT_MIN INT_MAX; omega
  have hIp : isInt (Mob.getHP (round^[i] (setup h)).meCtx -
      Mob.getATK (round^[i] (setup h)).enemyCtx) := by
    rw [hP, hb]; unfold isInt INT_MIN INT_MAX; omega
  refine ⟨?_, ?_, hIe, hIp, ?_, ?_⟩
  · rw [hE, ha]; omega
  · rw [hP, hb]; omega
  · rw [(round_values _).1]; exact subInt_exact _ _ hIe
  · rw [(round_values _).2]; exact subInt_exact _ _ hIp

/-- Witness of `driver_subtractions_exact` (C19) at the greatest `int`, 2147483647. -/
theorem driver_subtractions_exact_witness :
    isInt 2147483647 ∧
    ∃ trace : List Game,
      battleTrace (5 + 0) (setup 2147483647) = some trace ∧
      ∀ s ∈ trace.dropLast,
        (Mob.getHP s.enemyCtx - Mob.getATK s.meCtx = 0 ∨
          Mob.getHP s.enemyCtx - Mob.getATK s.meCtx = 2 ∨
          Mob.getHP s.enemyCtx - Mob.getATK s.meCtx = 4 ∨
          Mob.getHP s.enemyCtx - Mob.getATK s.meCtx = 6 ∨
          Mob.getHP s.enemyCtx - Mob.getATK s.meCtx = 8) ∧
        (-9 ≤ Mob.getHP s.meCtx - Mob.getATK s.enemyCtx ∧
          Mob.getHP s.meCtx - Mob.getATK s.enemyCtx ≤ 2147483647 - 10) ∧
        isInt (Mob.getHP s.enemyCtx - Mob.getATK s.meCtx) ∧
        isInt (Mob.getHP s.meCtx - Mob.getATK s.enemyCtx) ∧
        Mob.getHP (round s).enemyCtx = Mob.getHP s.enemyCtx - Mob.getATK s.meCtx ∧
        Mob.getHP (round s).meCtx = Mob.getHP s.meCtx - Mob.getATK s.enemyCtx :=
  ⟨by decide, driver_subtractions_exact 2147483647 (by decide) 0⟩

end PracticeGame
